import Mathlib

/-!
Verification of the WhatsNode connection & pairing subsystem.

This file is a shallow embedding, in Lean 4, of the connection/pairing core
of the whatsnode-js repository:

* `src/lib/whatsnode/connection.ts` — the `ConnectionManager` state machine
  (connect, key generation, QR and association-code pairing, disconnection
  handling, the reconnect schedule) and the `MessageManager` send path;
* the `AuthenticationManager` (QR / association-code front end);
* `src/lib/whatsnode/session.ts` — the `SessionManager` persistence layer,
  whose serialization boundary is `JSON.stringify` / `JSON.parse` over
  `localStorage`.

The JavaScript code is event driven; asynchronous methods are embedded as one
pure function per synchronous segment (the segment that runs between two
suspension points of the event loop).  Each definition cites the source lines
it translates.  Timers are modelled by a flag or a pending-delay field in the
state plus a separate `...Fires` function for the timer callback body.
-/

namespace WhatsNode

/-- Connection states, connection.ts line 25. -/
inductive ConnectionState where
  | disconnected
  | connecting
  | connected
  | authenticating
  | loggedIn
deriving DecidableEq, Repr

/-- Authentication strategies (auth.ts line 15). -/
inductive AuthStrategy where
  | qr
  | associationCode
deriving DecidableEq, Repr

/-- The subset of `ClientOptions` (client.ts lines 23-41) that the connection
core reads.  `none` models an absent (undefined) optional field. -/
structure ClientOptions where
  authStrategy : AuthStrategy
  autoReconnect : Bool
  reconnectInterval : Option ℚ
  maxReconnectAttempts : Option ℕ

/-- Key material generated by `generateKeys`, connection.ts lines 114-118:
`private` and `public` are 32 random bytes each, `shared` starts as `null`.
Nothing in the source ever assigns `shared` afterwards. -/
structure Keys where
  priv : List ℕ
  pub : List ℕ
  shared : Option (List ℕ)
deriving DecidableEq, Repr

/-- The `generateKeys` method, connection.ts lines 203-211.  The random bytes
are passed in as `entropyPriv`/`entropyPub` (the embedding of
`crypto.randomBytes(32)`); `shared` is set to `null`. -/
def generateKeys (entropyPriv entropyPub : List ℕ) : Keys :=
  { priv := entropyPriv, pub := entropyPub, shared := none }

/-- Events emitted by the `ConnectionManager` (an `EventEmitter`), with the
source's event names: `close` carries `wasConnected` (line 527). -/
inductive Event where
  | connecting
  | opened
  | close (wasConnected : Bool)
  | authFailure
  | reconnectFailed
  | reconnecting (attempt : ℕ)
  | authenticating
  | authenticated
  | ready
  | qr
  | waitingForQrScan
  | authStrategySet
  | associationCodeRequested (phone : String)
  | disconnectedEv
  | pong
  | message
deriving DecidableEq, Repr

/-- Frames written to the WebSocket via `sendBinary(encodeWAMessage(...))`. -/
inductive Frame where
  | clientHello
  | requestAssociationCode (phone : String)
  | validateAssociationCode (code : String)
  | sendMessageFrame (dest content : String)
  | ping
  | logout
  | restoreSessionFrame
deriving DecidableEq, Repr

/-- The `Error` values thrown by the embedded methods, with the source's
message strings recorded by `JsError.message` below. -/
inductive JsError where
  | wsNotConnected
  | notConnected
  | invalidStateRequest
  | invalidStateValidate
  | phoneNotSet
deriving DecidableEq, Repr

/-- The literal message string of each thrown `Error` in the source. -/
def JsError.message : JsError → String
  | .wsNotConnected => "WebSocket not connected"
  | .notConnected => "Not connected to WhatsApp"
  | .invalidStateRequest => "Not in correct state to request association code"
  | .invalidStateValidate => "Not in correct state to authenticate with association code"
  | .phoneNotSet => "Phone number not set. Call requestAssociationCode first."

/-- The mutable fields of `ConnectionManager` (connection.ts lines 104-119).
`ws = none` means the socket reference is `null`; `ws = some b` means a socket
exists and `b` says whether its `readyState` is `OPEN`.  `reconnectTimer`
holds the delay of the currently pending reconnect timer (`none`: no pending
timer).  `qrLoginTimer` / `assocLoginTimer` record that the simulated
login-confirmation `setTimeout` of lines 308 / 378 is armed. -/
structure CMState where
  connectionState : ConnectionState
  reconnectAttempts : ℕ
  reconnectTimer : Option ℚ
  pingActive : Bool
  ws : Option Bool
  keys : Option Keys
  qrLoginTimer : Bool
  assocLoginTimer : Bool

/-- Field values of a freshly constructed `ConnectionManager`
(connection.ts lines 107-119). -/
def initialCMState : CMState :=
  { connectionState := .disconnected
    reconnectAttempts := 0
    reconnectTimer := none
    pingActive := false
    ws := none
    keys := none
    qrLoginTimer := false
    assocLoginTimer := false }

/-- The effective reconnect-attempt ceiling,
`this.options.maxReconnectAttempts || 10` (line 548).  JavaScript `||`
treats `0` and `undefined` alike as falsy. -/
def maxAttemptsOf (o : ClientOptions) : ℕ :=
  match o.maxReconnectAttempts with
  | none => 10
  | some m => if m = 0 then 10 else m

/-- The effective base reconnect interval,
`this.options.reconnectInterval || 5000` (line 556). -/
def baseIntervalOf (o : ClientOptions) : ℚ :=
  match o.reconnectInterval with
  | none => 5000
  | some b => if b = 0 then 5000 else b

/-- The reconnect delay for 1-indexed attempt `n`, connection.ts lines
555-558: `Math.min(base * Math.pow(1.5, attempts - 1), 300000)`.  For the
attempt numbers reachable before the cap, the JavaScript double computation
is exact, so ℚ is a faithful carrier. -/
def reconnDelay (base : ℚ) (n : ℕ) : ℚ :=
  min (base * (3 / 2) ^ (n - 1)) 300000

/-- The `scheduleReconnect` method, connection.ts lines 543-575.  Any pending
timer is cleared first (lines 544-546); at or above the ceiling it emits
`reconnect_failed` and schedules nothing (lines 548-551); otherwise it
increments the counter and arms a timer with the back-off delay
(lines 553-574).  The `reconnecting` event is emitted later, by the timer
callback, not here. -/
def scheduleReconnect (o : ClientOptions) (s : CMState) : CMState × List Event :=
  let s0 := { s with reconnectTimer := none }
  if maxAttemptsOf o ≤ s0.reconnectAttempts then
    (s0, [Event.reconnectFailed])
  else
    let n := s0.reconnectAttempts + 1
    ({ s0 with reconnectAttempts := n,
               reconnectTimer := some (reconnDelay (baseIntervalOf o) n) }, [])

/-- The `handleDisconnection` method, connection.ts lines 518-538, shared by
the WebSocket `close` (line 504) and `error` (line 511) handlers: stop the
ping interval; if not already disconnected, become `disconnected`, emit
`close` (with `wasConnected` = previous state was `loggedIn`), emit
`auth_failure` exactly when the previous state was `authenticating`, and
invoke `scheduleReconnect` exactly when `autoReconnect` is enabled. -/
def handleDisconnection (o : ClientOptions) (s : CMState) : CMState × List Event :=
  let s0 := { s with pingActive := false }
  if s0.connectionState = .disconnected then (s0, [])
  else
    let prev := s0.connectionState
    let s1 := { s0 with connectionState := .disconnected }
    let evs := Event.close (prev = .loggedIn) ::
      (if prev = .authenticating then [Event.authFailure] else [])
    if o.autoReconnect then
      let r := scheduleReconnect o s1
      (r.1, evs ++ r.2)
    else (s1, evs)

/-- The synchronous prefix of `connect()`, connection.ts lines 130-150: the
guard `if (this.connectionState !== 'disconnected') return;` (lines 131-133)
returns without touching any field, emitting any event or opening any
transport; otherwise the state becomes `connecting`, the `connecting` event
is emitted, a socket is created (not yet open) and `generateKeys` runs. -/
def connectStart (s : CMState) (entropyPriv entropyPub : List ℕ) :
    CMState × List Event :=
  if s.connectionState ≠ .disconnected then (s, [])
  else
    ({ s with connectionState := .connecting
              ws := some false
              keys := some (generateKeys entropyPriv entropyPub) },
     [Event.connecting])

/-- The continuation of `connect()` once the transport-open promise resolves,
connection.ts lines 177-178: `this.connectionState = 'connected';
this.reconnectAttempts = 0;` (the socket's `readyState` is now `OPEN`). -/
def transportOpenStep (s : CMState) : CMState :=
  { s with connectionState := .connected, reconnectAttempts := 0, ws := some true }

/-- The failure branch of `connect()`, connection.ts lines 188-197: on a
rejected open (or a throw from `authenticate`), the state becomes
`disconnected` and `scheduleReconnect` runs exactly when `autoReconnect` is
enabled; the error is rethrown to the caller. -/
def connectFailStep (o : ClientOptions) (s : CMState) : CMState × List Event :=
  let s1 := { s with connectionState := .disconnected }
  if o.autoReconnect then scheduleReconnect o s1 else (s1, [])

/-- The `authenticate` method, connection.ts lines 216-239, together with the
synchronous effects of `authenticateWithQR` (lines 244-319).  `authInfo` is
never assigned anywhere in the source, so the session-restore branch
(lines 225-228) is dead and is not modelled.  For the `qr` strategy the
method sends the `clientHello` frame, emits the QR events and arms the
5-second simulated-scan timer of line 308; for `association-code` it emits
`auth_strategy_set` and waits for external calls.  (The intermediate
1-second QR-generation timer of line 290 only produces the emitted `qr`
event and is folded into this segment.) -/
def authenticateStep (o : ClientOptions) (s : CMState) :
    Except JsError (CMState × List Frame × List Event) :=
  if s.ws ≠ some true then .error .wsNotConnected
  else
    let s1 := { s with connectionState := .authenticating }
    match o.authStrategy with
    | .qr =>
        .ok ({ s1 with qrLoginTimer := true },
             [Frame.clientHello],
             [Event.authenticating, Event.qr, Event.waitingForQrScan])
    | .associationCode =>
        .ok (s1, [], [Event.authenticating, Event.authStrategySet])

/-- The body of the simulated QR-scan `setTimeout` of connection.ts lines
308-318: if the state is still `authenticating`, it becomes `loggedIn` and
`authenticated` / `ready` are emitted — with no inbound frame involved. -/
def qrScanTimerFires (s : CMState) : CMState × List Event :=
  if s.connectionState = .authenticating then
    ({ s with connectionState := .loggedIn, qrLoginTimer := false },
     [Event.authenticated, Event.ready])
  else ({ s with qrLoginTimer := false }, [])

/-- The body of the simulated association-code confirmation `setTimeout` of
connection.ts lines 378-388. -/
def assocCodeTimerFires (s : CMState) : CMState × List Event :=
  if s.connectionState = .authenticating ∨ s.connectionState = .connected then
    ({ s with connectionState := .loggedIn, assocLoginTimer := false },
     [Event.authenticated, Event.ready])
  else ({ s with assocLoginTimer := false }, [])

/-- The public `requestAssociationCode` method, connection.ts lines 324-354:
it throws unless the state is `authenticating` or `connected` (lines
325-327), throws if the socket is not open (lines 329-331), and otherwise
sends the code-request frame and emits `association_code_requested`.  (The
2-second timer of line 347 only logs and emits the `association_code_sending`
notification; it changes no state and is not modelled.) -/
def requestAssociationCode (s : CMState) (phone : String) :
    Except JsError (CMState × List Frame × List Event) :=
  if s.connectionState ≠ .authenticating ∧ s.connectionState ≠ .connected then
    .error .invalidStateRequest
  else if s.ws ≠ some true then .error .wsNotConnected
  else .ok (s, [Frame.requestAssociationCode phone],
            [Event.associationCodeRequested phone])

/-- The `ConnectionManager.authenticateWithAssociationCode` method,
connection.ts lines 359-389: same state guard as `requestAssociationCode`,
then the validation frame is sent and the simulated confirmation timer of
line 378 is armed. -/
def cmAuthenticateWithAssociationCode (s : CMState) (code : String) :
    Except JsError (CMState × List Frame) :=
  if s.connectionState ≠ .authenticating ∧ s.connectionState ≠ .connected then
    .error .invalidStateValidate
  else if s.ws ≠ some true then .error .wsNotConnected
  else .ok ({ s with assocLoginTimer := true },
            [Frame.validateAssociationCode code])

/-- Inbound messages as discriminated by `processMessage`,
connection.ts lines 475-499. -/
inductive InboundMsg where
  | pong
  | status401
  | qrMsg
  | connectedMsg
  | other
deriving DecidableEq, Repr

/-- The `processMessage` method, connection.ts lines 475-499. -/
def processMessage (s : CMState) (m : InboundMsg) : CMState × List Event :=
  match m with
  | .pong => (s, [Event.pong])
  | .status401 => ({ s with connectionState := .disconnected }, [Event.authFailure])
  | .qrMsg => (s, [Event.qr])
  | .connectedMsg =>
      ({ s with connectionState := .loggedIn }, [Event.authenticated, Event.ready])
  | .other => (s, [Event.message])

/-- The `ConnectionManager.sendMessage` method together with `sendBinary`,
connection.ts lines 615-621 and 663-669: the only guard is that the socket
exists and is `OPEN`; the connection state is not consulted.  The result is
the list of frames written to the transport. -/
def cmSendMessage (s : CMState) (f : Frame) : Except JsError (List Frame) :=
  if s.ws ≠ some true then .error .wsNotConnected
  else .ok [f]

/-- The `MessageManager.sendMessage` method, message.ts lines 764-784 of the
concatenated source: it throws `'Not connected to WhatsApp'` unless
`getConnectionState()` is exactly `'connected'`, and otherwise forwards the
`send_message` frame through `ConnectionManager.sendMessage`. -/
def mmSendMessage (s : CMState) (dest content : String) :
    Except JsError (List Frame) :=
  if s.connectionState ≠ .connected then .error .notConnected
  else cmSendMessage s (Frame.sendMessageFrame dest content)

/-- The mutable field of `AuthenticationManager` that the association-code
flow consults (auth.ts lines 17-23): `phoneNumber`, `null` at construction,
assigned by `requestAssociationCode` (line 125) and by the
`association_code_requested` listener (line 71), cleared only by `logout`
(line 160) and `deleteSession` (line 170). -/
structure AMState where
  phoneNumber : Option String
deriving DecidableEq, Repr

/-- The `AuthenticationManager.requestAssociationCode` method, auth.ts lines
124-133: it stores the phone number first (line 125, unconditionally — even
if the connection-level call then throws) and delegates to the connection. -/
def amRequestAssociationCode (am : AMState) (s : CMState) (phone : String) :
    AMState × Except JsError (CMState × List Frame × List Event) :=
  ({ am with phoneNumber := some phone }, requestAssociationCode s phone)

/-- The `AuthenticationManager.authenticateWithAssociationCode` method,
auth.ts lines 140-151 (the spec's `submitCode`): the guard
`if (!this.phoneNumber)` is a JavaScript falsiness test, so it throws
`'Phone number not set. Call requestAssociationCode first.'` both when
`phoneNumber` is `null` and when it is the empty string (which
`requestAssociationCode('')` stores unconditionally at line 125); otherwise
it delegates to `ConnectionManager.authenticateWithAssociationCode`. -/
def amAuthenticateWithAssociationCode (am : AMState) (s : CMState)
    (code : String) : Except JsError (CMState × List Frame) :=
  match am.phoneNumber with
  | none => .error .phoneNotSet
  | some p =>
    if p = "" then .error .phoneNotSet
    else cmAuthenticateWithAssociationCode s code

/-- Iterated `scheduleReconnect` state: the attempt-counter evolution of one
consecutive failure chain (each failed connect cycle calls
`scheduleReconnect` one or more times; the iteration index counts calls). -/
def scheduleIter (o : ClientOptions) (s : CMState) : ℕ → CMState
  | 0 => s
  | k + 1 => (scheduleReconnect o (scheduleIter o s k)).1

/-! Concrete configurations and reachable states used as test vectors. -/

/-- The resolved default options of client.ts lines 71-81 (auto-reconnect on,
5000 ms base interval, ceiling 10), with the QR strategy. -/
def optsDefault : ClientOptions :=
  { authStrategy := .qr, autoReconnect := true,
    reconnectInterval := some 5000, maxReconnectAttempts := some 10 }

/-- Options with `maxReconnectAttempts = 3`, association-code strategy. -/
def optsMax3 : ClientOptions :=
  { authStrategy := .associationCode, autoReconnect := true,
    reconnectInterval := some 5000, maxReconnectAttempts := some 3 }

/-- Options with auto-reconnect disabled and no overrides. -/
def optsNoReconnect : ClientOptions :=
  { authStrategy := .associationCode, autoReconnect := false,
    reconnectInterval := none, maxReconnectAttempts := none }

/-- Mid-authentication state of the QR flow: socket open, fresh keys, the
simulated-scan timer armed. -/
def authQrState : CMState :=
  { connectionState := .authenticating, reconnectAttempts := 0,
    reconnectTimer := none, pingActive := false, ws := some true,
    keys := some (generateKeys [1, 2] [3, 4]),
    qrLoginTimer := true, assocLoginTimer := false }

/-- Mid-authentication state of the association-code flow (first cycle). -/
def authAssocState : CMState :=
  { connectionState := .authenticating, reconnectAttempts := 0,
    reconnectTimer := none, pingActive := false, ws := some true,
    keys := some (generateKeys [5, 6] [7, 8]),
    qrLoginTimer := false, assocLoginTimer := false }

/-- Mid-authentication state of a later connect cycle (fresh keys). -/
def authAssocState2 : CMState :=
  { connectionState := .authenticating, reconnectAttempts := 0,
    reconnectTimer := none, pingActive := false, ws := some true,
    keys := some (generateKeys [9, 10] [11, 12]),
    qrLoginTimer := false, assocLoginTimer := false }

/-- A `connecting` state whose attempt counter is already 1 (reached when a
first reconnect attempt is in flight). -/
def connecting1State : CMState :=
  { connectionState := .connecting, reconnectAttempts := 1,
    reconnectTimer := none, pingActive := false, ws := some false,
    keys := some (generateKeys [1, 2] [3, 4]),
    qrLoginTimer := false, assocLoginTimer := false }

/-- A `connecting` state with attempt counter 5. -/
def connecting5State : CMState :=
  { connectionState := .connecting, reconnectAttempts := 5,
    reconnectTimer := none, pingActive := false, ws := some false,
    keys := some (generateKeys [1, 2] [3, 4]),
    qrLoginTimer := false, assocLoginTimer := false }

/-- A `connecting` state whose socket has just become `OPEN` (the instant
between the transport `open` event and the assignment of line 177). -/
def connectingOpenState : CMState :=
  { connectionState := .connecting, reconnectAttempts := 0,
    reconnectTimer := none, pingActive := false, ws := some true,
    keys := some (generateKeys [1, 2] [3, 4]),
    qrLoginTimer := false, assocLoginTimer := false }

/-- The `connected` state (transport open, not yet authenticated). -/
def connectedOpenState : CMState :=
  { connectionState := .connected, reconnectAttempts := 0,
    reconnectTimer := none, pingActive := false, ws := some true,
    keys := some (generateKeys [1, 2] [3, 4]),
    qrLoginTimer := false, assocLoginTimer := false }

/-- The `loggedIn` state with an open socket (post-authentication). -/
def loggedInOpenState : CMState :=
  { connectionState := .loggedIn, reconnectAttempts := 0,
    reconnectTimer := none, pingActive := true, ws := some true,
    keys := some (generateKeys [1, 2] [3, 4]),
    qrLoginTimer := false, assocLoginTimer := false }

/-! Session persistence (session.ts).  `SessionManager.saveSession` stores
`JSON.stringify(sessionData)` in `localStorage` under the key
`whatsnode_session_<sessionPath>` (lines 23-51); `restoreSession` reads the
key back, runs `JSON.parse`, treats a missing key, a parse failure or a
falsy parsed value as "no session", and otherwise restores the parsed value
(lines 58-108).  The serialization boundary is therefore
`JSON.stringify` / `JSON.parse`, embedded below over a JSON value type.
JSON numbers are restricted to integers — the credential's numeric fields
(sequence counter, issue timestamp) are integral. -/

/-- JSON values (object fields keep insertion order, as JavaScript does). -/
inductive Json where
  | null : Json
  | bool : Bool → Json
  | num : Int → Json
  | str : String → Json
  | arr : List Json → Json
  | obj : List (String × Json) → Json

/-- Lower-case hex digit, as produced by `JSON.stringify` in `\u00XX`
escapes. -/
def hexDigit : ℕ → Char
  | 0 => '0' | 1 => '1' | 2 => '2' | 3 => '3' | 4 => '4'
  | 5 => '5' | 6 => '6' | 7 => '7' | 8 => '8' | 9 => '9'
  | 10 => 'a' | 11 => 'b' | 12 => 'c' | 13 => 'd' | 14 => 'e' | 15 => 'f'
  | _ => '0'

/-- String-character escaping of `JSON.stringify`: quote and backslash get a
backslash, the five named control characters get their short escapes, the
remaining control characters (code point < 32) get `\u00XX`, everything else
is emitted verbatim. -/
def escapeChar (c : Char) : List Char :=
  if c = '"' then ['\\', '"']
  else if c = '\\' then ['\\', '\\']
  else if c = '\x08' then ['\\', 'b']
  else if c = '\t' then ['\\', 't']
  else if c = '\n' then ['\\', 'n']
  else if c = '\x0c' then ['\\', 'f']
  else if c = '\r' then ['\\', 'r']
  else if c.toNat < 32 then
    ['\\', 'u', '0', '0', hexDigit (c.toNat / 16), hexDigit (c.toNat % 16)]
  else [c]

/-- Body of a serialized JSON string: the escaped characters followed by the
closing quote. -/
def strString : List Char → List Char
  | [] => ['"']
  | c :: cs => escapeChar c ++ strString cs

/-- Decimal digit character. -/
def digitChar : ℕ → Char
  | 0 => '0' | 1 => '1' | 2 => '2' | 3 => '3' | 4 => '4'
  | 5 => '5' | 6 => '6' | 7 => '7' | 8 => '8' | 9 => '9'
  | _ => '0'

/-- Decimal representation of a natural number, most significant digit
first. -/
def natRepr (n : ℕ) : List Char :=
  if n = 0 then ['0'] else (Nat.digits 10 n).reverse.map digitChar

/-- Decimal representation of an integer, as printed by `JSON.stringify`. -/
def intChars (n : ℤ) : List Char :=
  if n < 0 then '-' :: natRepr n.natAbs else natRepr n.natAbs

mutual

/-- Characters of `JSON.stringify(v)` (compact form, no added whitespace). -/
def strVal : Json → List Char
  | .null => 'n' :: ['u', 'l', 'l']
  | .bool b => if b then 't' :: ['r', 'u', 'e'] else 'f' :: ['a', 'l', 's', 'e']
  | .num n => intChars n
  | .str s => '"' :: strString s.data
  | .arr [] => ['[', ']']
  | .arr (x :: xs) => '[' :: (strVal x ++ strElems xs)
  | .obj [] => ['\x7b', '\x7d']
  | .obj (f :: fs) => '\x7b' :: (strField f ++ strFields fs)

/-- Remaining array elements, each preceded by a comma, ended by `]`. -/
def strElems : List Json → List Char
  | [] => [']']
  | x :: xs => ',' :: (strVal x ++ strElems xs)

/-- One serialized object field: quoted key, colon, value. -/
def strField : String × Json → List Char
  | (k, v) => '"' :: (strString k.data ++ (':' :: strVal v))

/-- Remaining object fields, each preceded by a comma, ended by the closing
brace. -/
def strFields : List (String × Json) → List Char
  | [] => ['\x7d']
  | f :: fs => ',' :: (strField f ++ strFields fs)

end

/-- The `JSON.stringify` of session.ts line 36. -/
def stringify (v : Json) : String := String.mk (strVal v)

/-- JSON insignificant whitespace. -/
def isWsChar (c : Char) : Bool :=
  c == ' ' || c == '\t' || c == '\n' || c == '\r'

/-- Skip leading insignificant whitespace. -/
def skipWs : List Char → List Char
  | [] => []
  | c :: cs => if isWsChar c then skipWs cs else c :: cs

/-- Decimal digit test. -/
def isDigitChar (c : Char) : Bool :=
  decide (48 ≤ c.toNat) && decide (c.toNat ≤ 57)

/-- Value of a decimal digit character. -/
def digitVal (c : Char) : ℕ := c.toNat - 48

/-- Value of a hexadecimal digit character (either case). -/
def hexVal (c : Char) : ℕ :=
  if decide (48 ≤ c.toNat) && decide (c.toNat ≤ 57) then c.toNat - 48
  else if decide (97 ≤ c.toNat) && decide (c.toNat ≤ 102) then c.toNat - 87
  else if decide (65 ≤ c.toNat) && decide (c.toNat ≤ 70) then c.toNat - 55
  else 0

/-- Head test on a character list. -/
def headIs (cs : List Char) (d : Char) : Bool :=
  match cs with
  | c :: _ => c == d
  | [] => false

/-- Parse the body of a JSON string after the opening quote: returns the
unescaped characters and the input after the closing quote.  (Surrogate-pair
recombination of `\uXXXX` escapes is not modelled; the printer never emits
surrogates.) -/
def unescapeBody : List Char → Option (List Char × List Char)
  | [] => none
  | c :: rest =>
    if c = '"' then some ([], rest)
    else if c = '\\' then
      match rest with
      | [] => none
      | e :: r =>
        if e = '"' then (unescapeBody r).map (fun p => ('"' :: p.1, p.2))
        else if e = '\\' then (unescapeBody r).map (fun p => ('\\' :: p.1, p.2))
        else if e = '/' then (unescapeBody r).map (fun p => ('/' :: p.1, p.2))
        else if e = 'b' then (unescapeBody r).map (fun p => ('\x08' :: p.1, p.2))
        else if e = 'f' then (unescapeBody r).map (fun p => ('\x0c' :: p.1, p.2))
        else if e = 'n' then (unescapeBody r).map (fun p => ('\n' :: p.1, p.2))
        else if e = 'r' then (unescapeBody r).map (fun p => ('\r' :: p.1, p.2))
        else if e = 't' then (unescapeBody r).map (fun p => ('\t' :: p.1, p.2))
        else if e = 'u' then
          match r with
          | h1 :: h2 :: h3 :: h4 :: r2 =>
            (unescapeBody r2).map (fun p =>
              (Char.ofNat
                 (((hexVal h1 * 16 + hexVal h2) * 16 + hexVal h3) * 16 +
                   hexVal h4) :: p.1, p.2))
          | _ => none
        else none
    else (unescapeBody rest).map (fun p => (c :: p.1, p.2))

/-- Consume a maximal run of decimal digits and return its value and the
rest of the input. -/
def parseNatChars (cs : List Char) : ℕ × List Char :=
  ((cs.takeWhile isDigitChar).foldl (fun a c => 10 * a + digitVal c) 0,
   cs.dropWhile isDigitChar)

mutual

/-- Recursive-descent JSON value parse with a fuel bound (the embedding of
`JSON.parse`, restricted to integer numerals). -/
def parseVal : ℕ → List Char → Option (Json × List Char)
  | 0, _ => none
  | f + 1, cs =>
    match skipWs cs with
    | [] => none
    | c :: rest =>
      if isDigitChar c then
        some (Json.num ((parseNatChars (c :: rest)).1 : ℤ),
              (parseNatChars (c :: rest)).2)
      else if c = '-' then
        match rest with
        | [] => none
        | c2 :: _ =>
          if isDigitChar c2 then
            some (Json.num (-((parseNatChars rest).1 : ℤ)),
                  (parseNatChars rest).2)
          else none
      else if c = '"' then
        match unescapeBody rest with
        | some p => some (Json.str (String.mk p.1), p.2)
        | none => none
      else if c = '[' then
        let r := skipWs rest
        if headIs r ']' then some (Json.arr [], r.tail)
        else
          match parseElems f r with
          | some p => some (Json.arr p.1, p.2)
          | none => none
      else if c = '\x7b' then
        let r := skipWs rest
        if headIs r '\x7d' then some (Json.obj [], r.tail)
        else
          match parseFields f r with
          | some p => some (Json.obj p.1, p.2)
          | none => none
      else
        match c :: rest with
        | 'n' :: 'u' :: 'l' :: 'l' :: r => some (Json.null, r)
        | 't' :: 'r' :: 'u' :: 'e' :: r => some (Json.bool true, r)
        | 'f' :: 'a' :: 'l' :: 's' :: 'e' :: r => some (Json.bool false, r)
        | _ => none

/-- Parse one or more comma-separated array elements and the closing `]`. -/
def parseElems : ℕ → List Char → Option (List Json × List Char)
  | 0, _ => none
  | f + 1, cs =>
    match parseVal f cs with
    | none => none
    | some (v, rest) =>
      match skipWs rest with
      | ',' :: rest2 =>
        match parseElems f rest2 with
        | some p => some (v :: p.1, p.2)
        | none => none
      | ']' :: rest2 => some ([v], rest2)
      | _ => none

/-- Parse one or more comma-separated object fields and the closing brace. -/
def parseFields : ℕ → List Char → Option (List (String × Json) × List Char)
  | 0, _ => none
  | f + 1, cs =>
    match skipWs cs with
    | '"' :: rest =>
      (match unescapeBody rest with
       | none => none
       | some (k, rest1) =>
         match skipWs rest1 with
         | ':' :: rest2 =>
           (match parseVal f rest2 with
            | none => none
            | some (v, rest3) =>
              match skipWs rest3 with
              | ',' :: rest4 =>
                (match parseFields f rest4 with
                 | some p => some ((String.mk k, v) :: p.1, p.2)
                 | none => none)
              | '\x7d' :: rest4 => some ([(String.mk k, v)], rest4)
              | _ => none)
         | _ => none)
    | _ => none

end

mutual

/-- Fuel sufficient for `parseVal` on the printed form of a value. -/
def fuelVal : Json → ℕ
  | .null => 1
  | .bool _ => 1
  | .num _ => 1
  | .str _ => 1
  | .arr [] => 1
  | .arr (x :: xs) => 1 + fuelElems (x :: xs)
  | .obj [] => 1
  | .obj (f :: fs) => 1 + fuelFields (f :: fs)

def fuelElems : List Json → ℕ
  | [] => 0
  | x :: xs => 1 + max (fuelVal x) (fuelElems xs)

def fuelFields : List (String × Json) → ℕ
  | [] => 0
  | (_, v) :: fs => 1 + max (fuelVal v) (fuelFields fs)

end

/-- A suffix is a safe delimiter for a printed numeral: it is empty or does
not start with a digit. -/
def delimOk : List Char → Prop
  | [] => True
  | c :: _ => isDigitChar c = false

/-- The `JSON.parse` of session.ts line 74: parse a value and require that
only insignificant whitespace remains. -/
def parse (s : String) : Option Json :=
  match parseVal (s.data.length + 1) s.data with
  | some (v, rest) => if skipWs rest = [] then some v else none
  | none => none

/-- The `localStorage` key of session.ts lines 35 and 71. -/
def sessionKey (sessionPath : String) : String :=
  "whatsnode_session_" ++ sessionPath

/-- The `SessionManager.saveSession` method, session.ts lines 23-51: with a
falsy `sessionPath` (undefined or the empty string) nothing is saved;
otherwise `JSON.stringify(sessionData)` is stored under the session key.
The store is the `localStorage` map from keys to stored strings. -/
def saveSession (store : String → Option String) (sessionPath : String)
    (sessionData : Json) : String → Option String :=
  if sessionPath = "" then store
  else fun k =>
    if k = sessionKey sessionPath then some (stringify sessionData) else store k

/-- JavaScript falsiness of a parsed JSON value, as tested by
`if (!sessionData)` in session.ts line 80. -/
def jsonFalsy : Json → Bool
  | .null => true
  | .bool false => true
  | .num 0 => true
  | .str "" => true
  | _ => false

/-- The `SessionManager.restoreSession` method, session.ts lines 58-108:
with a falsy `sessionPath` it restores nothing; a missing key, a
`JSON.parse` throw (caught, line 101) or a falsy parsed value all yield "no
session" (`false`); otherwise the parsed session data is restored (and sent
in a `restore_session` frame).  The result is the restored value, `none`
standing for the `false` outcome. -/
def restoreSession (store : String → Option String) (sessionPath : String) :
    Option Json :=
  if sessionPath = "" then none
  else
    match store (sessionKey sessionPath) with
    | none => none
    | some raw =>
      match parse raw with
      | none => none
      | some v => if jsonFalsy v then none else some v

/-- A concrete pairing-credential record in the spec's shape (§3): remote
account id, shared secret bytes, sequence counter, issue timestamp. -/
def sampleCredential : Json :=
  Json.obj
    [("account", Json.str "40712345678@c.us"),
     ("sharedSecret", Json.arr [Json.num 17, Json.num 130, Json.num 255]),
     ("seq", Json.num 42),
     ("issuedAt", Json.num 1700000000)]

/-! Claims about the connection state machine. -/

/-- C1: the source grants `loggedIn` from a local timer alone.  With the
state `authenticating` in the QR flow and no inbound frame consumed, the
simulated-scan timer callback (connection.ts lines 308-318) sets the state
to `loggedIn` and emits `authenticated`/`ready`, while the key material
still has `shared = null` — and `generateKeys` always produces
`shared = null`, so no shared secret ever derives from a server frame.
This evaluates the code at the failing input of the claim that `loggedIn`
and the shared secret arise only from a server-authenticated confirmation
frame. -/
theorem qr_timer_grants_loggedIn_locally :
    (qrScanTimerFires authQrState).1.connectionState = .loggedIn ∧
    (qrScanTimerFires authQrState).2 = [Event.authenticated, Event.ready] ∧
    (qrScanTimerFires authQrState).1.keys =
      some { priv := [1, 2], pub := [3, 4], shared := none } ∧
    (∀ a b, (generateKeys a b).shared = none) :=
  ⟨rfl, rfl, rfl, fun _ _ => rfl⟩

/-- C2 (amended): a transport close/error in any state other than
`disconnected` makes the state `disconnected`, emits `close`, emits
`auth_failure` iff the previous state was `authenticating`, and runs the
reconnect scheduler iff auto-reconnect is enabled; the scheduled delay is
`delay(c+1)` where `c` is the prior attempt counter (so `delay(1)` exactly
when the counter was 0), and at or above the ceiling `reconnect_failed` is
emitted and no timer is armed. -/
theorem handleDisconnection_spec (o : ClientOptions) (s : CMState)
    (h : s.connectionState ≠ .disconnected) :
    (handleDisconnection o s).1.connectionState = .disconnected ∧
    Event.close (s.connectionState = .loggedIn) ∈ (handleDisconnection o s).2 ∧
    (Event.authFailure ∈ (handleDisconnection o s).2 ↔
      s.connectionState = .authenticating) ∧
    (o.autoReconnect = false →
      (handleDisconnection o s).1.reconnectTimer = s.reconnectTimer ∧
      (handleDisconnection o s).1.reconnectAttempts = s.reconnectAttempts ∧
      Event.reconnectFailed ∉ (handleDisconnection o s).2) ∧
    (o.autoReconnect = true → s.reconnectAttempts < maxAttemptsOf o →
      (handleDisconnection o s).1.reconnectAttempts = s.reconnectAttempts + 1 ∧
      (handleDisconnection o s).1.reconnectTimer =
        some (reconnDelay (baseIntervalOf o) (s.reconnectAttempts + 1)) ∧
      Event.reconnectFailed ∉ (handleDisconnection o s).2) ∧
    (o.autoReconnect = true → maxAttemptsOf o ≤ s.reconnectAttempts →
      (handleDisconnection o s).1.reconnectTimer = none ∧
      Event.reconnectFailed ∈ (handleDisconnection o s).2) := by
  refine ⟨?_, ?_, ?_, fun ha => ?_, fun ha hm => ?_, fun ha hm => ?_⟩
  · by_cases ha : o.autoReconnect <;>
      by_cases hm : maxAttemptsOf o ≤ s.reconnectAttempts <;>
        simp [handleDisconnection, scheduleReconnect, h, ha, hm]
  · by_cases ha : o.autoReconnect <;>
      by_cases hm : maxAttemptsOf o ≤ s.reconnectAttempts <;>
        by_cases hauth : s.connectionState = .authenticating <;>
          simp [handleDisconnection, scheduleReconnect, h, ha, hm, hauth]
  · by_cases ha : o.autoReconnect <;>
      by_cases hm : maxAttemptsOf o ≤ s.reconnectAttempts <;>
        by_cases hauth : s.connectionState = .authenticating <;>
          simp [handleDisconnection, scheduleReconnect, h, ha, hm, hauth]
  · by_cases hauth : s.connectionState = .authenticating <;>
      simp [handleDisconnection, scheduleReconnect, h, ha, hauth]
  · have hm2 : ¬ maxAttemptsOf o ≤ s.reconnectAttempts := Nat.not_le.mpr hm
    by_cases hauth : s.connectionState = .authenticating <;>
      simp [handleDisconnection, scheduleReconnect, h, ha, hm2, hauth]
  · by_cases hauth : s.connectionState = .authenticating <;>
      simp [handleDisconnection, scheduleReconnect, h, ha, hm, hauth]

/-- Witness for `handleDisconnection_spec` at a concrete input. -/
theorem handleDisconnection_spec_witness :
    authQrState.connectionState ≠ ConnectionState.disconnected ∧
    (handleDisconnection optsDefault authQrState).1.connectionState =
      .disconnected :=
  ⟨by decide, (handleDisconnection_spec optsDefault authQrState (by decide)).1⟩

/-- C2 counterexample: the claim says a reconnect attempt with `delay(1)` is
scheduled whenever auto-reconnect is enabled, but with the attempt counter
already at 1 the handler arms `delay(2) = 7500 ms`, not
`delay(1) = 5000 ms`. -/
theorem handleDisconnection_not_always_delay_one :
    (handleDisconnection optsDefault connecting1State).1.reconnectTimer =
      some (7500 : ℚ) ∧
    reconnDelay 5000 1 = 5000 ∧ (7500 : ℚ) ≠ 5000 := by
  refine ⟨?_, by norm_num [reconnDelay, min_def], by norm_num⟩
  simp [handleDisconnection, scheduleReconnect, reconnDelay,
        optsDefault, connecting1State, maxAttemptsOf, baseIntervalOf]
  norm_num [min_def]

/-- C3 counterexample: with base 5000 the delay of attempt 10 is
`5000 * 1.5^9 = 192216.796875 ms`, strictly below the 300000 ms cap, so the
claim's example "attempt 10 is capped at 300000 ms" is false. -/
theorem reconnDelay_attempt10_not_capped : reconnDelay 5000 10 ≠ 300000 := by
  norm_num [reconnDelay, min_def]

/-- C3 (amended): the delay formula is
`delay(n) = min(base * 1.5^(n-1), 300000)`; with base 5000, attempts 1-3
give 5000 / 7500 / 11250 ms, attempt 10 gives 192216.796875 ms
(= 12301875/64, not yet capped), and the cap first applies at attempt 12. -/
theorem reconnDelay_formula :
    (∀ base n, reconnDelay base n = min (base * (3 / 2) ^ (n - 1)) 300000) ∧
    reconnDelay 5000 1 = 5000 ∧
    reconnDelay 5000 2 = 7500 ∧
    reconnDelay 5000 3 = 11250 ∧
    reconnDelay 5000 10 = 12301875 / 64 ∧
    reconnDelay 5000 11 < 300000 ∧
    reconnDelay 5000 12 = 300000 := by
  refine ⟨fun base n => rfl, ?_, ?_, ?_, ?_, ?_, ?_⟩ <;>
    norm_num [reconnDelay, min_def]

/-- C4: in a consecutive failure chain starting with attempt counter 0, the
k-th call of the reconnect scheduler (0-indexed prior calls) arms a timer
with `delay(k+1)` while `k` is below the ceiling, and every call at or above
the ceiling emits `reconnect_failed` and arms no timer; the counter never
exceeds the ceiling, so at most `maxReconnectAttempts` attempts are ever
scheduled. -/
theorem scheduleReconnect_ceiling (o : ClientOptions) (s : CMState)
    (h : s.reconnectAttempts = 0) :
    (∀ k, (scheduleIter o s k).reconnectAttempts = min k (maxAttemptsOf o)) ∧
    (∀ k, k < maxAttemptsOf o →
      (scheduleReconnect o (scheduleIter o s k)).2 = [] ∧
      (scheduleReconnect o (scheduleIter o s k)).1.reconnectTimer =
        some (reconnDelay (baseIntervalOf o) (k + 1))) ∧
    (∀ k, maxAttemptsOf o ≤ k →
      (scheduleReconnect o (scheduleIter o s k)).2 = [Event.reconnectFailed] ∧
      (scheduleReconnect o (scheduleIter o s k)).1.reconnectTimer = none) := by
  have hiter : ∀ k, (scheduleIter o s k).reconnectAttempts =
      min k (maxAttemptsOf o) := by
    intro k
    induction k with
    | zero => simpa [scheduleIter] using h
    | succ k ih =>
      rw [scheduleIter]
      by_cases hm : maxAttemptsOf o ≤ (scheduleIter o s k).reconnectAttempts
      · have hm2 := hm
        rw [ih] at hm2
        simp [scheduleReconnect, hm]
        rw [ih]
        omega
      · have hm2 := hm
        rw [ih] at hm2
        simp [scheduleReconnect, hm]
        rw [ih]
        omega
  refine ⟨hiter, fun k hk => ?_, fun k hk => ?_⟩
  · have hlt : ¬ maxAttemptsOf o ≤ (scheduleIter o s k).reconnectAttempts := by
      rw [hiter k]; omega
    constructor
    · simp [scheduleReconnect, hlt]
    · have : (scheduleIter o s k).reconnectAttempts + 1 = k + 1 := by
        rw [hiter k]; omega
      simp [scheduleReconnect, hlt, this]
  · have hge : maxAttemptsOf o ≤ (scheduleIter o s k).reconnectAttempts := by
      rw [hiter k]; omega
    constructor
    · simp [scheduleReconnect, hge]
    · simp [scheduleReconnect, hge]

/-- Witness for `scheduleReconnect_ceiling`: ceiling 3 — the fourth call
emits `reconnect_failed` and schedules no attempt 4. -/
theorem scheduleReconnect_ceiling_witness :
    initialCMState.reconnectAttempts = 0 ∧
    ((scheduleReconnect optsMax3 (scheduleIter optsMax3 initialCMState 3)).2 =
       [Event.reconnectFailed] ∧
     (scheduleReconnect optsMax3
        (scheduleIter optsMax3 initialCMState 3)).1.reconnectTimer = none) :=
  ⟨rfl, (scheduleReconnect_ceiling optsMax3 initialCMState rfl).2.2 3 (by decide)⟩

/-- C5 (amended): the attempt counter is set to 0 by the transport-open step
(the transition into `connected`, lines 177-178), while the steps that grant
`loggedIn` (QR timer, association-code timer, `connected` frame) leave the
counter unchanged, and neither `scheduleReconnect` nor `handleDisconnection`
ever lowers it; along the normal success path the counter is therefore 0
already from `connected` onwards, including on reaching `loggedIn`. -/
theorem reconnect_counter_reset_on_connected :
    (∀ s, (transportOpenStep s).connectionState = .connected ∧
          (transportOpenStep s).reconnectAttempts = 0) ∧
    (∀ s, (qrScanTimerFires s).1.reconnectAttempts = s.reconnectAttempts) ∧
    (∀ s, (assocCodeTimerFires s).1.reconnectAttempts = s.reconnectAttempts) ∧
    (∀ s m, (processMessage s m).1.reconnectAttempts = s.reconnectAttempts) ∧
    (∀ o s, s.reconnectAttempts ≤ (scheduleReconnect o s).1.reconnectAttempts) ∧
    (∀ o s, s.reconnectAttempts ≤
      (handleDisconnection o s).1.reconnectAttempts) := by
  refine ⟨fun s => ⟨rfl, rfl⟩, fun s => ?_, fun s => ?_, fun s m => ?_,
          fun o s => ?_, fun o s => ?_⟩
  · by_cases hs : s.connectionState = .authenticating <;>
      simp [qrScanTimerFires, hs]
  · by_cases hs : s.connectionState = .authenticating ∨
        s.connectionState = .connected <;>
      simp [assocCodeTimerFires, hs]
  · cases m <;> simp [processMessage]
  · by_cases hm : maxAttemptsOf o ≤ s.reconnectAttempts <;>
      simp [scheduleReconnect, hm]
  · by_cases hd : s.connectionState = .disconnected <;>
      by_cases ha : o.autoReconnect <;>
        by_cases hm : maxAttemptsOf o ≤ s.reconnectAttempts <;>
          simp [handleDisconnection, scheduleReconnect, hd, ha, hm]

/-- C5 counterexample: from `connecting` with attempt counter 5, the
transport-open step resets the counter to 0 although the resulting state is
`connected`, not `loggedIn` — refuting "the counter is reset only on a
transition into `loggedIn`". -/
theorem counter_reset_before_loggedIn :
    connecting5State.reconnectAttempts = 5 ∧
    (transportOpenStep connecting5State).connectionState = .connected ∧
    (transportOpenStep connecting5State).connectionState ≠ .loggedIn ∧
    (transportOpenStep connecting5State).reconnectAttempts = 0 :=
  ⟨rfl, rfl, by decide, rfl⟩

/-- C6: the outbound send guard checks `state === 'connected'`, not
`loggedIn`.  Evaluating the code: in the `loggedIn` state (open socket)
`MessageManager.sendMessage` throws `'Not connected to WhatsApp'`; in the
pre-authentication `connected` state it sends the frame; while `connecting`
it throws with no transport write; and `ConnectionManager.sendMessage`
itself consults only the socket, never the connection state. -/
theorem sendMessage_guard_checks_connected :
    mmSendMessage loggedInOpenState "123@c.us" "hi" = .error .notConnected ∧
    mmSendMessage connectedOpenState "123@c.us" "hi" =
      .ok [Frame.sendMessageFrame "123@c.us" "hi"] ∧
    mmSendMessage connecting1State "123@c.us" "hi" = .error .notConnected ∧
    cmSendMessage connectingOpenState Frame.ping = .ok [Frame.ping] :=
  ⟨rfl, rfl, rfl, rfl⟩

/-- C7 (amended): `requestAssociationCode` fails with the invalid-state
error exactly when the state is neither `authenticating` nor `connected`
(not: neither `connecting` nor `connected`); in `authenticating` or
`connected` with an open socket it sends the code-request frame. -/
theorem requestAssociationCode_state_guard (s : CMState) (phone : String) :
    (requestAssociationCode s phone = .error .invalidStateRequest ↔
      (s.connectionState ≠ .authenticating ∧ s.connectionState ≠ .connected)) ∧
    ((s.connectionState = .authenticating ∨ s.connectionState = .connected) →
      s.ws = some true →
      requestAssociationCode s phone =
        .ok (s, [Frame.requestAssociationCode phone],
             [Event.associationCodeRequested phone])) := by
  constructor
  · by_cases hg : s.connectionState ≠ .authenticating ∧
        s.connectionState ≠ .connected
    · simp [requestAssociationCode, hg]
    · by_cases hw : s.ws = some true <;>
        simp [requestAssociationCode, hg, hw]
  · intro hs hw
    have hg : ¬ (s.connectionState ≠ .authenticating ∧
        s.connectionState ≠ .connected) := by tauto
    simp [requestAssociationCode, hg, hw]

/-- Witness for `requestAssociationCode_state_guard`: in `authenticating`
with an open socket the request proceeds and sends the frame. -/
theorem requestAssociationCode_state_guard_witness :
    (authAssocState.connectionState = .authenticating ∨
      authAssocState.connectionState = .connected) ∧
    authAssocState.ws = some true ∧
    requestAssociationCode authAssocState "+40711111111" =
      .ok (authAssocState, [Frame.requestAssociationCode "+40711111111"],
           [Event.associationCodeRequested "+40711111111"]) :=
  ⟨Or.inl rfl, rfl,
   (requestAssociationCode_state_guard authAssocState "+40711111111").2
     (Or.inl rfl) rfl⟩

/-- C7 counterexample: the claim says `requestCode` fails iff the state is
neither `connecting` nor `connected`.  But in `authenticating` (which the
claim's set excludes) the code proceeds and sends the frame, and in
`connecting` (which the claim's set allows) the code throws the
invalid-state error. -/
theorem requestAssociationCode_guard_differs_from_claim :
    requestAssociationCode authAssocState "+40711111111" =
      .ok (authAssocState, [Frame.requestAssociationCode "+40711111111"],
           [Event.associationCodeRequested "+40711111111"]) ∧
    requestAssociationCode connectingOpenState "+40711111111" =
      .error .invalidStateRequest :=
  ⟨rfl, rfl⟩

/-- C8 (amended): `submitCode` fails (with the phone-number-not-set misuse
error, sending nothing) exactly when the stored phone number is
JavaScript-falsy — absent, i.e. no `requestCode` call since construction or
logout, or the empty string as stored by `requestCode('')`.  The record is
scoped to the manager lifetime, not to a single pairing attempt; any
`requestCode` call stores its argument unconditionally. -/
theorem submitCode_phone_guard (am : AMState) (s : CMState) (code : String) :
    (am.phoneNumber = none →
      amAuthenticateWithAssociationCode am s code = .error .phoneNotSet) ∧
    (am.phoneNumber = some "" →
      amAuthenticateWithAssociationCode am s code = .error .phoneNotSet) ∧
    (∀ p, am.phoneNumber = some p → p ≠ "" →
      amAuthenticateWithAssociationCode am s code =
        cmAuthenticateWithAssociationCode s code) ∧
    (∀ p, (amRequestAssociationCode am s p).1.phoneNumber = some p) := by
  refine ⟨fun h => ?_, fun h => ?_, fun p h hp => ?_, fun p => rfl⟩
  · simp [amAuthenticateWithAssociationCode, h]
  · simp [amAuthenticateWithAssociationCode, h]
  · simp [amAuthenticateWithAssociationCode, h, hp]

/-- Witness for `submitCode_phone_guard`: a fresh manager (no `requestCode`
ever called) rejects `submitCode`. -/
theorem submitCode_phone_guard_witness :
    (AMState.mk none).phoneNumber = none ∧
    amAuthenticateWithAssociationCode (AMState.mk none) authAssocState "1234" =
      .error .phoneNotSet :=
  ⟨rfl, (submitCode_phone_guard (AMState.mk none) authAssocState "1234").1 rfl⟩

/-- C8 counterexample: `requestCode` runs in a first pairing attempt (storing
the phone number), the attempt fails with a disconnection, and a second
attempt reaches `authenticating` again; `submitCode` in that second attempt —
in which `requestCode` was never called — does not fail with the misuse error
but sends the validation frame, because the stored phone number survives the
failed attempt. -/
theorem submitCode_succeeds_without_requestCode_in_attempt :
    (amRequestAssociationCode (AMState.mk none) authAssocState "+40711111111").1 =
      AMState.mk (some "+40711111111") ∧
    (handleDisconnection optsNoReconnect authAssocState).1.connectionState =
      .disconnected ∧
    amAuthenticateWithAssociationCode (AMState.mk (some "+40711111111"))
        authAssocState2 "1234" =
      .ok ({ authAssocState2 with assocLoginTimer := true },
           [Frame.validateAssociationCode "1234"]) :=
  ⟨rfl, rfl, rfl⟩

/-- C10: calling `connect()` in any state other than `disconnected` is a
silent no-op — the guard of connection.ts lines 131-133 returns before any
field is written, any event is emitted or any transport is opened, and no
error is raised. -/
theorem connect_noop_when_not_disconnected (s : CMState)
    (entropyPriv entropyPub : List ℕ)
    (h : s.connectionState ≠ .disconnected) :
    connectStart s entropyPriv entropyPub = (s, []) := by
  simp [connectStart, h]

/-- Witness for `connect_noop_when_not_disconnected` in the `connecting`
state. -/
theorem connect_noop_witness :
    connectingOpenState.connectionState ≠ ConnectionState.disconnected ∧
    connectStart connectingOpenState [] [] = (connectingOpenState, []) :=
  ⟨by decide,
   connect_noop_when_not_disconnected connectingOpenState [] [] (by decide)⟩

/-! Round-trip lemmas for the JSON serialization boundary. -/

theorem digitChar_isDigit : ∀ d, d < 10 → isDigitChar (digitChar d) = true := by
  decide

theorem digitVal_digitChar : ∀ d, d < 10 → digitVal (digitChar d) = d := by
  decide

theorem hexVal_hexDigit : ∀ x, x < 16 → hexVal (hexDigit x) = x := by
  decide

theorem ne_digit_char {c d : Char} (hc : isDigitChar c = true)
    (hd : isDigitChar d = false) : c ≠ d := by
  intro h
  rw [h, hd] at hc
  exact Bool.false_ne_true hc

theorem digit_not_ws {c : Char} (hc : isDigitChar c = true) :
    isWsChar c = false := by
  have h1 : c ≠ ' ' := ne_digit_char hc (by decide)
  have h2 : c ≠ '\t' := ne_digit_char hc (by decide)
  have h3 : c ≠ '\n' := ne_digit_char hc (by decide)
  have h4 : c ≠ '\r' := ne_digit_char hc (by decide)
  simp [isWsChar, h1, h2, h3, h4]

theorem skipWs_cons {c : Char} (h : isWsChar c = false) (cs : List Char) :
    skipWs (c :: cs) = c :: cs := by
  simp [skipWs, h]

theorem takeWhile_digits :
    ∀ (l r : List Char), (∀ c ∈ l, isDigitChar c = true) → delimOk r →
      (l ++ r).takeWhile isDigitChar = l ∧
      (l ++ r).dropWhile isDigitChar = r := by
  intro l
  induction l with
  | nil =>
    intro r _ hr
    cases r with
    | nil => simp
    | cons c cs =>
      have hc : isDigitChar c = false := hr
      simp [List.takeWhile, List.dropWhile, hc]
  | cons a l ih =>
    intro r hl hr
    have ha : isDigitChar a = true := hl a (by simp)
    have := ih r (fun c hc => hl c (by simp [hc])) hr
    simp [List.takeWhile_cons, List.dropWhile_cons, ha, this.1, this.2]

theorem natRepr_ne_nil (n : ℕ) : natRepr n ≠ [] := by
  unfold natRepr
  split
  · simp
  · simp [Nat.digits_ne_nil_iff_ne_zero, *]

theorem natRepr_digits (n : ℕ) : ∀ c ∈ natRepr n, isDigitChar c = true := by
  unfold natRepr
  split
  · intro c hc
    simp only [List.mem_singleton] at hc
    subst hc
    decide
  · intro c hc
    simp only [List.mem_map, List.mem_reverse] at hc
    obtain ⟨d, hd, rfl⟩ := hc
    exact digitChar_isDigit d (Nat.digits_lt_base (by norm_num) hd)

theorem natRepr_head (n : ℕ) :
    ∃ c cs, natRepr n = c :: cs ∧ isDigitChar c = true := by
  rcases hx : natRepr n with _ | ⟨c, cs⟩
  · exact absurd hx (natRepr_ne_nil n)
  · exact ⟨c, cs, rfl, natRepr_digits n c (by rw [hx]; simp)⟩

theorem foldl_natRepr (n : ℕ) :
    (natRepr n).foldl (fun a c => 10 * a + digitVal c) 0 = n := by
  unfold natRepr
  split
  · simp [digitVal]
    omega
  · rw [show (Nat.digits 10 n).reverse.map digitChar =
        ((Nat.digits 10 n).map digitChar).reverse from
        List.map_reverse digitChar (Nat.digits 10 n),
      List.foldl_reverse, List.foldr_map]
    have key : ∀ ds : List ℕ, (∀ d ∈ ds, d < 10) →
        ds.foldr (fun d a => 10 * a + digitVal (digitChar d)) 0 =
          Nat.ofDigits 10 ds := by
      intro ds h
      induction ds with
      | nil => simp [Nat.ofDigits_nil]
      | cons d ds ih =>
        rw [List.foldr_cons, Nat.ofDigits_cons,
          ih (fun x hx => h x (List.mem_cons_of_mem d hx)),
          digitVal_digitChar d (h d (List.mem_cons_self d ds))]
        ring
    rw [key _ (fun d hd => Nat.digits_lt_base (by norm_num) hd),
      Nat.ofDigits_digits]

theorem parseNatChars_natRepr (n : ℕ) (rest : List Char) (hr : delimOk rest) :
    parseNatChars (natRepr n ++ rest) = (n, rest) := by
  obtain ⟨ht, hd⟩ := takeWhile_digits (natRepr n) rest (natRepr_digits n) hr
  simp [parseNatChars, ht, hd, foldl_natRepr]

theorem unescapeBody_strString :
    ∀ (cs rest : List Char),
      unescapeBody (strString cs ++ rest) = some (cs, rest) := by
  intro cs
  induction cs with
  | nil =>
    intro rest
    rw [strString, List.cons_append, unescapeBody.eq_def]
    simp
  | cons c cs ih =>
    intro rest
    rw [strString, List.append_assoc]
    by_cases h1 : c = '"'
    · subst h1
      rw [show escapeChar '"' = ['\\', '"'] from by decide, unescapeBody.eq_def]
      simp [ih]
    · by_cases h2 : c = '\\'
      · subst h2
        rw [show escapeChar '\\' = ['\\', '\\'] from by decide,
          unescapeBody.eq_def]
        simp [ih]
      · by_cases h3 : c = '\x08'
        · subst h3
          rw [show escapeChar '\x08' = ['\\', 'b'] from by decide,
            unescapeBody.eq_def]
          simp [ih]
        · by_cases h4 : c = '\t'
          · subst h4
            rw [show escapeChar '\t' = ['\\', 't'] from by decide,
              unescapeBody.eq_def]
            simp [ih]
          · by_cases h5 : c = '\n'
            · subst h5
              rw [show escapeChar '\n' = ['\\', 'n'] from by decide,
                unescapeBody.eq_def]
              simp [ih]
            · by_cases h6 : c = '\x0c'
              · subst h6
                rw [show escapeChar '\x0c' = ['\\', 'f'] from by decide,
                  unescapeBody.eq_def]
                simp [ih]
              · by_cases h7 : c = '\r'
                · subst h7
                  rw [show escapeChar '\r' = ['\\', 'r'] from by decide,
                    unescapeBody.eq_def]
                  simp [ih]
                · by_cases h8 : c.toNat < 32
                  · have hhi : c.toNat / 16 < 16 := by omega
                    have hlo : c.toNat % 16 < 16 := Nat.mod_lt _ (by norm_num)
                    have hval :
                        ((hexVal '0' * 16 + hexVal '0') * 16 +
                            hexVal (hexDigit (c.toNat / 16))) * 16 +
                          hexVal (hexDigit (c.toNat % 16)) = c.toNat := by
                      rw [hexVal_hexDigit _ hhi, hexVal_hexDigit _ hlo,
                        show hexVal '0' = 0 from by decide]
                      omega
                    rw [show escapeChar c =
                        ['\\', 'u', '0', '0', hexDigit (c.toNat / 16),
                         hexDigit (c.toNat % 16)] from by
                      simp [escapeChar, h1, h2, h3, h4, h5, h6, h7, h8]]
                    rw [unescapeBody.eq_def]
                    simp [ih, hval, Char.ofNat_toNat]
                  · rw [show escapeChar c = [c] from by
                      simp [escapeChar, h1, h2, h3, h4, h5, h6, h7, h8]]
                    rw [unescapeBody.eq_def]
                    simp [ih, h1, h2]

theorem digit_head_facts {c : Char} (hc : isDigitChar c = true) :
    isWsChar c = false ∧ (c == ']') = false ∧ (c == '\x7d') = false := by
  refine ⟨digit_not_ws hc, ?_, ?_⟩
  · exact beq_eq_false_iff_ne.mpr
      (ne_digit_char hc (show isDigitChar ']' = false from by decide))
  · exact beq_eq_false_iff_ne.mpr
      (ne_digit_char hc (show isDigitChar '\x7d' = false from by decide))

theorem strVal_head (v : Json) :
    ∃ c cs, strVal v = c :: cs ∧ isWsChar c = false ∧
      (c == ']') = false ∧ (c == '\x7d') = false := by
  cases v with
  | null =>
    exact ⟨'n', ['u', 'l', 'l'], by simp [strVal], by decide, by decide,
      by decide⟩
  | bool b =>
    cases b with
    | false =>
      exact ⟨'f', ['a', 'l', 's', 'e'], by simp [strVal], by decide,
        by decide, by decide⟩
    | true =>
      exact ⟨'t', ['r', 'u', 'e'], by simp [strVal], by decide, by decide,
        by decide⟩
  | num n =>
    by_cases hn : n < 0
    · exact ⟨'-', natRepr n.natAbs, by simp [strVal, intChars, hn],
        by decide, by decide, by decide⟩
    · obtain ⟨c, cs, hx, hdc⟩ := natRepr_head n.natAbs
      obtain ⟨w1, w2, w3⟩ := digit_head_facts hdc
      exact ⟨c, cs, by simp [strVal, intChars, hn, hx], w1, w2, w3⟩
  | str s =>
    exact ⟨'"', strString s.data, by simp [strVal], by decide, by decide,
      by decide⟩
  | arr xs =>
    cases xs with
    | nil =>
      exact ⟨'[', [']'], by simp [strVal], by decide, by decide, by decide⟩
    | cons x xs =>
      exact ⟨'[', strVal x ++ strElems xs, by simp [strVal], by decide,
        by decide, by decide⟩
  | obj fs =>
    cases fs with
    | nil =>
      exact ⟨'\x7b', ['\x7d'], by simp [strVal], by decide, by decide,
        by decide⟩
    | cons f fs =>
      exact ⟨'\x7b', strField f ++ strFields fs, by simp [strVal], by decide,
        by decide, by decide⟩

theorem fuelVal_pos : ∀ v : Json, 1 ≤ fuelVal v
  | .null => by simp [fuelVal]
  | .bool _ => by simp [fuelVal]
  | .num _ => by simp [fuelVal]
  | .str _ => by simp [fuelVal]
  | .arr [] => by simp [fuelVal]
  | .arr (_ :: _) => by simp [fuelVal]
  | .obj [] => by simp [fuelVal]
  | .obj (_ :: _) => by simp [fuelVal]

theorem parser_inverts_printer : ∀ f : ℕ,
    (∀ v rest, fuelVal v ≤ f → delimOk rest →
      parseVal f (strVal v ++ rest) = some (v, rest)) ∧
    (∀ x xs rest, fuelElems (x :: xs) ≤ f →
      parseElems f (strVal x ++ (strElems xs ++ rest)) = some (x :: xs, rest)) ∧
    (∀ k v fs rest, fuelFields ((k, v) :: fs) ≤ f →
      parseFields f (strField (k, v) ++ (strFields fs ++ rest)) =
        some ((k, v) :: fs, rest)) := by
  intro f
  induction f using Nat.strong_induction_on with
  | _ f IH =>
    rcases f with _ | g
    · refine ⟨fun v rest hf _ => absurd hf ?_, fun x xs rest hf => ?_,
        fun k v fs rest hf => ?_⟩
      · have := fuelVal_pos v
        omega
      · rw [show fuelElems (x :: xs) = 1 + max (fuelVal x) (fuelElems xs)
          from by simp [fuelElems]] at hf
        omega
      · rw [show fuelFields ((k, v) :: fs) = 1 + max (fuelVal v) (fuelFields fs)
          from by simp [fuelFields]] at hf
        omega
    · obtain ⟨IHV, IHE, IHF⟩ := IH g (Nat.lt_succ_self g)
      refine ⟨?_, ?_, ?_⟩
      · intro v rest hf hrest
        cases v with
        | null =>
          rw [show strVal Json.null = 'n' :: ['u', 'l', 'l'] from by
              simp [strVal],
            List.cons_append, parseVal.eq_def]
          simp [skipWs_cons (show isWsChar 'n' = false from by decide),
            List.cons_append, (show isDigitChar 'n' = false from by decide)]
        | bool b =>
          cases b with
          | false =>
            rw [show strVal (Json.bool false) = 'f' :: ['a', 'l', 's', 'e']
                from by simp [strVal],
              List.cons_append, parseVal.eq_def]
            simp [skipWs_cons (show isWsChar 'f' = false from by decide),
              List.cons_append, (show isDigitChar 'f' = false from by decide)]
          | true =>
            rw [show strVal (Json.bool true) = 't' :: ['r', 'u', 'e'] from by
                simp [strVal],
              List.cons_append, parseVal.eq_def]
            simp [skipWs_cons (show isWsChar 't' = false from by decide),
              List.cons_append, (show isDigitChar 't' = false from by decide)]
        | num n =>
          by_cases hn : n < 0
          · obtain ⟨c2, cs2, hx, hd2⟩ := natRepr_head n.natAbs
            have hpn : parseNatChars (c2 :: (cs2 ++ rest)) = (n.natAbs, rest) := by
              rw [← List.cons_append, ← hx]
              exact parseNatChars_natRepr n.natAbs rest hrest
            have hval : (-(n.natAbs : ℤ)) = n := by omega
            rw [show strVal (Json.num n) = '-' :: natRepr n.natAbs from by
                simp [strVal, intChars, hn],
              List.cons_append, hx, List.cons_append, parseVal.eq_def]
            simp [skipWs_cons (show isWsChar '-' = false from by decide),
              hd2, hpn, hval, (show isDigitChar '-' = false from by decide)]
            rw [abs_of_neg hn]
            ring
          · obtain ⟨c2, cs2, hx, hd2⟩ := natRepr_head n.natAbs
            have hpn : parseNatChars (c2 :: (cs2 ++ rest)) = (n.natAbs, rest) := by
              rw [← List.cons_append, ← hx]
              exact parseNatChars_natRepr n.natAbs rest hrest
            have hval : ((n.natAbs : ℤ)) = n := by omega
            rw [show strVal (Json.num n) = natRepr n.natAbs from by
                simp [strVal, intChars, hn],
              hx, List.cons_append, parseVal.eq_def]
            simp [skipWs_cons (digit_not_ws hd2), hd2, hpn, hval]
        | str s =>
          obtain ⟨sd⟩ := s
          rw [show strVal (Json.str (String.mk sd)) = '"' :: strString sd
              from by simp [strVal],
            List.cons_append, parseVal.eq_def]
          simp [skipWs_cons (show isWsChar '"' = false from by decide),
            unescapeBody_strString,
            (show isDigitChar '"' = false from by decide)]
        | arr xs =>
          cases xs with
          | nil =>
            rw [show strVal (Json.arr []) = '[' :: [']'] from by simp [strVal],
              List.cons_append, parseVal.eq_def]
            simp [skipWs_cons (show isWsChar '[' = false from by decide),
              List.cons_append,
              skipWs_cons (show isWsChar ']' = false from by decide), headIs,
              (show isDigitChar '[' = false from by decide)]
          | cons x xs =>
            have hfe : fuelElems (x :: xs) ≤ g := by
              rw [show fuelVal (Json.arr (x :: xs)) = 1 + fuelElems (x :: xs)
                from by simp [fuelVal]] at hf
              omega
            obtain ⟨c2, cs2, hx, hw2, hb1, hb2⟩ := strVal_head x
            have hE : parseElems g (c2 :: (cs2 ++ (strElems xs ++ rest))) =
                some (x :: xs, rest) := by
              rw [← List.cons_append, ← hx]
              exact IHE x xs rest hfe
            rw [show strVal (Json.arr (x :: xs)) =
                '[' :: (strVal x ++ strElems xs) from by simp [strVal],
              List.cons_append, List.append_assoc, hx, List.cons_append,
              parseVal.eq_def]
            simp [skipWs_cons (show isWsChar '[' = false from by decide),
              skipWs_cons hw2, headIs, hb1, hE,
              (show isDigitChar '[' = false from by decide)]
        | obj fs =>
          cases fs with
          | nil =>
            rw [show strVal (Json.obj []) = '\x7b' :: ['\x7d'] from by
                simp [strVal],
              List.cons_append, parseVal.eq_def]
            simp [skipWs_cons (show isWsChar '\x7b' = false from by decide),
              List.cons_append,
              skipWs_cons (show isWsChar '\x7d' = false from by decide),
              headIs, (show isDigitChar '\x7b' = false from by decide)]
          | cons fld fs =>
            obtain ⟨k, v2⟩ := fld
            have hff : fuelFields ((k, v2) :: fs) ≤ g := by
              rw [show fuelVal (Json.obj ((k, v2) :: fs)) =
                  1 + fuelFields ((k, v2) :: fs) from by simp [fuelVal]] at hf
              omega
            have hF : parseFields g
                (strField (k, v2) ++ (strFields fs ++ rest)) =
                some ((k, v2) :: fs, rest) := IHF k v2 fs rest hff
            have hhead : ∃ c2 cs2, strField (k, v2) = c2 :: cs2 ∧
                isWsChar c2 = false ∧ (c2 == '\x7d') = false := by
              exact ⟨'"', strString k.data ++ (':' :: strVal v2),
                by simp [strField], by decide, by decide⟩
            obtain ⟨c2, cs2, hx, hw2, hb2⟩ := hhead
            rw [hx] at hF
            rw [show strVal (Json.obj ((k, v2) :: fs)) =
                '\x7b' :: (strField (k, v2) ++ strFields fs) from by
                simp [strVal],
              List.cons_append, List.append_assoc, hx, List.cons_append,
              parseVal.eq_def]
            rw [List.cons_append] at hF
            simp [skipWs_cons (show isWsChar '\x7b' = false from by decide),
              skipWs_cons hw2, headIs, hb2, hF,
              (show isDigitChar '\x7b' = false from by decide)]
      · intro x xs rest hf
        have hfx : fuelVal x ≤ g := by
          rw [show fuelElems (x :: xs) = 1 + max (fuelVal x) (fuelElems xs)
            from by simp [fuelElems]] at hf
          omega
        have hdelim : delimOk (strElems xs ++ rest) := by
          cases xs with
          | nil =>
            rw [show strElems ([] : List Json) = [']'] from by simp [strElems],
              List.cons_append]
            exact (by decide : isDigitChar ']' = false)
          | cons y ys =>
            rw [show strElems (y :: ys) = ',' :: (strVal y ++ strElems ys)
              from by simp [strElems], List.cons_append]
            exact (by decide : isDigitChar ',' = false)
        have hV : parseVal g (strVal x ++ (strElems xs ++ rest)) =
            some (x, strElems xs ++ rest) := IHV x _ hfx hdelim
        rw [parseElems.eq_def]
        cases xs with
        | nil =>
          simp only [hV]
          rw [show strElems ([] : List Json) = [']'] from by simp [strElems]]
          simp [List.cons_append,
            skipWs_cons (show isWsChar ']' = false from by decide)]
        | cons y ys =>
          have hfy : fuelElems (y :: ys) ≤ g := by
            rw [show fuelElems (x :: y :: ys) =
                1 + max (fuelVal x) (fuelElems (y :: ys)) from by
              simp [fuelElems]] at hf
            omega
          have hE2 : parseElems g (strVal y ++ (strElems ys ++ rest)) =
              some (y :: ys, rest) := IHE y ys rest hfy
          simp only [hV]
          rw [show strElems (y :: ys) = ',' :: (strVal y ++ strElems ys)
            from by simp [strElems]]
          simp [List.cons_append,
            skipWs_cons (show isWsChar ',' = false from by decide),
            List.append_assoc, hE2]
      · intro k v2 fs rest hf
        have hfv : fuelVal v2 ≤ g := by
          rw [show fuelFields ((k, v2) :: fs) =
              1 + max (fuelVal v2) (fuelFields fs) from by
            simp [fuelFields]] at hf
          omega
        have hdelim : delimOk (strFields fs ++ rest) := by
          cases fs with
          | nil =>
            rw [show strFields ([] : List (String × Json)) = ['\x7d'] from by
              simp [strFields], List.cons_append]
            exact (by decide : isDigitChar '\x7d' = false)
          | cons f2 fs2 =>
            rw [show strFields (f2 :: fs2) = ',' :: (strField f2 ++ strFields fs2)
              from by simp [strFields], List.cons_append]
            exact (by decide : isDigitChar ',' = false)
        have hV : parseVal g (strVal v2 ++ (strFields fs ++ rest)) =
            some (v2, strFields fs ++ rest) := IHV v2 _ hfv hdelim
        obtain ⟨kd⟩ := k
        rw [show strField (String.mk kd, v2) =
            '"' :: (strString kd ++ (':' :: strVal v2)) from by simp [strField],
          List.cons_append, List.append_assoc, parseFields.eq_def]
        rw [show (':' :: strVal v2) ++ (strFields fs ++ rest) =
            ':' :: (strVal v2 ++ (strFields fs ++ rest)) from by
          simp [List.cons_append]]
        simp only [skipWs_cons (show isWsChar '"' = false from by decide)]
        simp only [unescapeBody_strString]
        cases fs with
        | nil =>
          simp only [skipWs_cons (show isWsChar ':' = false from by decide), hV]
          rw [show strFields ([] : List (String × Json)) = ['\x7d'] from by
            simp [strFields]]
          simp [List.cons_append,
            skipWs_cons (show isWsChar '\x7d' = false from by decide)]
        | cons f2 fs2 =>
          obtain ⟨k2, w2⟩ := f2
          have hff2 : fuelFields ((k2, w2) :: fs2) ≤ g := by
            rw [show fuelFields ((String.mk kd, v2) :: (k2, w2) :: fs2) =
                1 + max (fuelVal v2) (fuelFields ((k2, w2) :: fs2)) from by
              simp [fuelFields]] at hf
            omega
          have hF2 : parseFields g
              (strField (k2, w2) ++ (strFields fs2 ++ rest)) =
              some ((k2, w2) :: fs2, rest) := IHF k2 w2 fs2 rest hff2
          simp only [skipWs_cons (show isWsChar ':' = false from by decide), hV]
          rw [show strFields ((k2, w2) :: fs2) =
              ',' :: (strField (k2, w2) ++ strFields fs2) from by
            simp [strFields]]
          simp [List.cons_append,
            skipWs_cons (show isWsChar ',' = false from by decide),
            List.append_assoc, hF2]

theorem fuel_le_strVal_length : ∀ n : ℕ,
    (∀ v, fuelVal v ≤ n → fuelVal v ≤ (strVal v).length) ∧
    (∀ x xs, fuelElems (x :: xs) ≤ n →
      fuelElems (x :: xs) ≤ (strVal x ++ strElems xs).length) ∧
    (∀ k v fs, fuelFields ((k, v) :: fs) ≤ n →
      fuelFields ((k, v) :: fs) ≤ (strField (k, v) ++ strFields fs).length) := by
  intro n
  induction n using Nat.strong_induction_on with
  | _ n IH =>
    refine ⟨?_, ?_, ?_⟩
    · intro v hv
      cases v with
      | null => simp [fuelVal, strVal]
      | bool b => cases b <;> simp [fuelVal, strVal]
      | num m =>
        rw [show fuelVal (Json.num m) = 1 from by simp [fuelVal],
          show strVal (Json.num m) = intChars m from by simp [strVal]]
        by_cases hm : m < 0
        · simp [intChars, hm]
        · simp [intChars, hm]
          exact List.length_pos.mpr (natRepr_ne_nil _)
      | str s => simp [fuelVal, strVal]
      | arr xs =>
        cases xs with
        | nil => simp [fuelVal, strVal]
        | cons x xs =>
          rw [show fuelVal (Json.arr (x :: xs)) = 1 + fuelElems (x :: xs)
            from by simp [fuelVal]] at hv ⊢
          rw [show strVal (Json.arr (x :: xs)) =
            '[' :: (strVal x ++ strElems xs) from by simp [strVal]]
          have hE := (IH (fuelElems (x :: xs)) (by omega)).2.1 x xs (le_refl _)
          simp only [List.length_append, List.length_cons] at hE ⊢
          omega
      | obj fs =>
        cases fs with
        | nil => simp [fuelVal, strVal]
        | cons fld fs =>
          obtain ⟨k, v2⟩ := fld
          rw [show fuelVal (Json.obj ((k, v2) :: fs)) =
            1 + fuelFields ((k, v2) :: fs) from by simp [fuelVal]] at hv ⊢
          rw [show strVal (Json.obj ((k, v2) :: fs)) =
            '\x7b' :: (strField (k, v2) ++ strFields fs) from by simp [strVal]]
          have hF := (IH (fuelFields ((k, v2) :: fs)) (by omega)).2.2 k v2 fs
            (le_refl _)
          simp only [List.length_append, List.length_cons] at hF ⊢
          omega
    · intro x xs hx
      rw [show fuelElems (x :: xs) = 1 + max (fuelVal x) (fuelElems xs)
        from by simp [fuelElems]] at hx ⊢
      have hV := (IH (fuelVal x) (by omega)).1 x (le_refl _)
      cases xs with
      | nil =>
        rw [show strElems ([] : List Json) = [']'] from by simp [strElems]]
        rw [show fuelElems ([] : List Json) = 0 from by simp [fuelElems]]
          at hx ⊢
        simp only [List.length_append, List.length_cons, List.length_nil]
          at hV ⊢
        omega
      | cons y ys =>
        have hE := (IH (fuelElems (y :: ys)) (by omega)).2.1 y ys (le_refl _)
        rw [show strElems (y :: ys) = ',' :: (strVal y ++ strElems ys)
          from by simp [strElems]]
        simp only [List.length_append, List.length_cons] at hE ⊢
        omega
    · intro k v2 fs hk
      rw [show fuelFields ((k, v2) :: fs) =
        1 + max (fuelVal v2) (fuelFields fs) from by simp [fuelFields]]
        at hk ⊢
      have hV := (IH (fuelVal v2) (by omega)).1 v2 (le_refl _)
      rw [show strField (k, v2) =
        '"' :: (strString k.data ++ (':' :: strVal v2)) from by
        simp [strField]]
      cases fs with
      | nil =>
        rw [show strFields ([] : List (String × Json)) = ['\x7d'] from by
          simp [strFields]]
        rw [show fuelFields ([] : List (String × Json)) = 0 from by
          simp [fuelFields]] at hk ⊢
        simp only [List.length_append, List.length_cons, List.length_nil]
          at hV ⊢
        omega
      | cons f2 fs2 =>
        obtain ⟨k2, w2⟩ := f2
        have hF := (IH (fuelFields ((k2, w2) :: fs2)) (by omega)).2.2 k2 w2 fs2
          (le_refl _)
        rw [show strFields ((k2, w2) :: fs2) =
          ',' :: (strField (k2, w2) ++ strFields fs2) from by simp [strFields]]
        simp only [List.length_append, List.length_cons] at hF ⊢
        omega

theorem fuelVal_le_length (v : Json) : fuelVal v ≤ (strVal v).length :=
  (fuel_le_strVal_length (fuelVal v)).1 v (le_refl _)

/-- Serialization round-trip at the `JSON.stringify`/`JSON.parse` boundary:
parsing the printed form of any JSON value recovers the value exactly. -/
theorem parse_stringify (v : Json) : parse (stringify v) = some v := by
  have h1 : parseVal ((strVal v).length + 1) (strVal v ++ []) = some (v, []) :=
    (parser_inverts_printer ((strVal v).length + 1)).1 v []
      (by have := fuelVal_le_length v; omega) trivial
  rw [List.append_nil] at h1
  simp [parse, stringify, h1, skipWs]

/-- C9 (amended): for every non-empty session identifier and every
JSON-representable credential that is not one of JavaScript's falsy scalars
(null, false, 0, the empty string — a spec-shaped credential record, being
an object, never is), a credential written by `saveSession` and read back by
`restoreSession` under the same identifier is recovered exactly: the store
holds the byte-exact JSON text and the restored value equals the original. -/
theorem session_save_restore_roundtrip (store : String → Option String)
    (sessionPath : String) (cred : Json)
    (hp : sessionPath ≠ "") (hv : jsonFalsy cred = false) :
    restoreSession (saveSession store sessionPath cred) sessionPath =
      some cred := by
  simp [saveSession, restoreSession, hp, parse_stringify, hv]

/-- Witness for `session_save_restore_roundtrip` on a concrete credential
record. -/
theorem session_save_restore_roundtrip_witness :
    "session1" ≠ "" ∧ jsonFalsy sampleCredential = false ∧
    restoreSession (saveSession (fun _ => none) "session1" sampleCredential)
        "session1" = some sampleCredential :=
  ⟨by decide, rfl,
   session_save_restore_roundtrip (fun _ => none) "session1" sampleCredential
     (by decide) rfl⟩

/-- C9 counterexample: the empty session identifier is falsy in the source's
guards (session.ts lines 24 and 59), so `saveSession` stores nothing and
`restoreSession` reports "no session" — the read-back result is not the
stored credential, refuting the round-trip law for every identifier. -/
theorem session_empty_id_no_roundtrip :
    restoreSession (saveSession (fun _ => none) "" sampleCredential) "" =
      none ∧
    (none : Option Json) ≠ some sampleCredential := by
  constructor
  · simp [saveSession, restoreSession]
  · simp

end WhatsNode
